import Mathlib

/-!
Shallow embedding of the lirGAN training core (src/lirGAN/model.py).

Float tensors are modelled as grids of exact rationals (`Grid h w`);
real-valued transcendental computations (BCE with logits) live in `Real`.
A division whose float result is non-finite (NaN or infinity, i.e. a zero
denominator) is modelled by `Option`: `none` stands for the non-finite
result, and `Option.bind` mirrors NaN propagation through arithmetic.
-/

namespace LirGan

/-- Float division: a zero denominator yields a non-finite float (NaN or
inf), modelled as `none`. -/
def fdiv (a b : ℚ) : Option ℚ := if b = 0 then none else some (a / b)

/-- A 2D float tensor of shape (h, w), the mask representation used by
the losses in src/lirGAN/model.py. -/
abbrev Grid (h w : ℕ) := Fin h → Fin w → ℚ

/-- Pixels of the grid holding a nonzero value (torch truthiness of a
float entry, as used by torch.logical_and / torch.nonzero). -/
def nonzeroPixels {h w : ℕ} (g : Grid h w) : Finset (Fin h × Fin w) :=
  Finset.univ.filter (fun p => g p.1 p.2 ≠ 0)

/-- torch.sum of the elementwise float tensor. -/
def gridSum {h w : ℕ} (g : Grid h w) : ℚ :=
  ∑ i : Fin h, ∑ j : Fin w, g i j

/-- torch.sum(torch.logical_and(g, t).float()): the number of pixels
nonzero in both grids. -/
def interCount {h w : ℕ} (g t : Grid h w) : ℕ :=
  (Finset.univ.filter (fun p : Fin h × Fin w => g p.1 p.2 ≠ 0 ∧ t p.1 p.2 ≠ 0)).card

/-- torch.sum(torch.logical_or(g, t).float()): the number of pixels
nonzero in at least one grid. -/
def unionCount {h w : ℕ} (g t : Grid h w) : ℕ :=
  (Finset.univ.filter (fun p : Fin h × Fin w => g p.1 p.2 ≠ 0 ∨ t p.1 p.2 ≠ 0)).card

/-- torch.nonzero(g).float().mean(dim=0): the mean coordinate of the
nonzero pixels; the empty mean is NaN (`none`). -/
def centroid {h w : ℕ} (g : Grid h w) : Option (ℚ × ℚ) :=
  if (nonzeroPixels g).card = 0 then none
  else
    some ((∑ p ∈ nonzeroPixels g, (p.1 : ℚ)) / (nonzeroPixels g).card,
          (∑ p ∈ nonzeroPixels g, (p.2 : ℚ)) / (nonzeroPixels g).card)

/-- LirGeometricLoss.compute_diou_loss (src/lirGAN/model.py lines 69-97):
IoU of the two masks as boolean grids, squared centroid distance divided by
the squared diagonal of the shape vector (the source computes
(norm(cg - ct) / norm(shape))^2, which equals distSq / diagSq), combined as
(1 - (iou - normalized_distance)) * diou_weight. -/
def compute_diou_loss {h w : ℕ} (generated_lir target_lir : Grid h w)
    (diou_weight : ℚ) : Option ℚ := do
  let iou_score ← fdiv (interCount generated_lir target_lir : ℚ)
    (unionCount generated_lir target_lir : ℚ)
  let cg ← centroid generated_lir
  let ct ← centroid target_lir
  let distSq : ℚ := (cg.1 - ct.1) ^ 2 + (cg.2 - ct.2) ^ 2
  let diagSq : ℚ := (h : ℚ) ^ 2 + (w : ℚ) ^ 2
  let normalized_distance ← fdiv distSq diagSq
  pure ((1 - (iou_score - normalized_distance)) * diou_weight)

/-- LirGeometricLoss.compute_feasibility_loss (src/lirGAN/model.py lines
99-117): the number of pixels with generated == 1 and polygon != 1,
divided by the sum of the polygon grid, times the weight. -/
def compute_feasibility_loss {h w : ℕ} (input_polygon generated_lir : Grid h w)
    (feasibility_weight : ℚ) : Option ℚ := do
  let infeasCount : ℕ :=
    (Finset.univ.filter
      (fun p : Fin h × Fin w =>
        generated_lir p.1 p.2 = 1 ∧ input_polygon p.1 p.2 ≠ 1)).card
  let feasibility_loss ← fdiv (infeasCount : ℚ) (gridSum input_polygon)
  pure (feasibility_loss * feasibility_weight)

/-- The logistic sigmoid, torch.sigmoid. -/
noncomputable def sigmoid (x : ℝ) : ℝ := 1 / (1 + Real.exp (-x))

/-- Per-element loss of nn.BCEWithLogitsLoss: the input is treated as a
logit, so the sigmoid is applied to it before the binary cross-entropy. -/
noncomputable def bceWithLogitsPixel (x t : ℝ) : ℝ :=
  -(t * Real.log (sigmoid x) + (1 - t) * Real.log (1 - sigmoid x))

/-- self.bce_loss_function = nn.BCEWithLogitsLoss() (src/lirGAN/model.py
line 67), applied to a (generated, target) grid pair with the default
mean reduction over all elements. -/
noncomputable def bce_loss_function {h w : ℕ} (generated_lir target_lir : Grid h w) : ℝ :=
  (∑ i : Fin h, ∑ j : Fin w,
    bceWithLogitsPixel (generated_lir i j : ℝ) (target_lir i j : ℝ)) / (h * w : ℝ)

/-- Per-element plain binary cross-entropy of a probability p against a
target t, the term the spec describes: BCE applied to the probabilities
directly, with no further transformation. Stated from the spec for
comparison with the source's bce_loss_function. -/
noncomputable def bceDirectPixel (p t : ℝ) : ℝ :=
  -(t * Real.log p + (1 - t) * Real.log (1 - p))

/-- Mean-reduced plain binary cross-entropy between a probability grid
and a target grid; the reconstruction term as the spec words it. -/
noncomputable def bceDirectMean {h w : ℕ} (p t : Fin h → Fin w → ℝ) : ℝ :=
  (∑ i : Fin h, ∑ j : Fin w, bceDirectPixel (p i j) (t i j)) / (h * w : ℝ)

/-- Configured weights of LirGeometricLoss (src/lirGAN/model.py lines
55-67). The bce_weight field is stored by the source constructor but
never applied in forward. -/
structure LirGeometricLoss where
  bce_weight : ℚ := 1
  diou_weight : ℚ := 1
  feasibility_weight : ℚ := 1

/-- One iteration of the loop in LirGeometricLoss.forward (src/lirGAN/
model.py lines 134-144): bce + diou + feasibility for one sample; a
non-finite term makes the sample loss non-finite. -/
noncomputable def sampleLoss {h w : ℕ} (cfg : LirGeometricLoss)
    (generated_lir target_lir input_polygon : Grid h w) : Option ℝ := do
  let bce_loss : ℝ := bce_loss_function generated_lir target_lir
  let diou_loss ← compute_diou_loss generated_lir target_lir cfg.diou_weight
  let feasibility_loss ←
    compute_feasibility_loss input_polygon generated_lir cfg.feasibility_weight
  pure (bce_loss + (diou_loss : ℝ) + (feasibility_loss : ℝ))

/-- Addition of possibly non-finite scalars: NaN propagates. -/
def oadd : Option ℝ → Option ℝ → Option ℝ
  | some a, some b => some (a + b)
  | _, _ => none

/-- Python's zip over three sequences, truncating to the shortest. -/
def zip3 {α β γ : Type} : List α → List β → List γ → List (α × β × γ)
  | a :: as, b :: bs, c :: cs => (a, b, c) :: zip3 as bs cs
  | _, _, _ => []

/-- LirGeometricLoss.forward (src/lirGAN/model.py lines 119-146):
total_loss starts at 0 and accumulates the per-sample losses over
zip(generated_lirs, target_lirs, input_polygons). -/
noncomputable def forward {h w : ℕ} (cfg : LirGeometricLoss)
    (input_polygons generated_lirs target_lirs : List (Grid h w)) : Option ℝ :=
  (zip3 generated_lirs target_lirs input_polygons).foldl
    (fun total_loss s => oadd total_loss (sampleLoss cfg s.1 s.2.1 s.2.2))
    (some 0)

/-- Output length of nn.Conv2d along one spatial dimension:
floor((n + 2 * padding - kernel) / stride) + 1. -/
def convOut (n kernel stride padding : ℕ) : ℕ :=
  (n + 2 * padding - kernel) / stride + 1

/-- Output length of nn.ConvTranspose2d along one spatial dimension:
(n - 1) * stride - 2 * padding + kernel. -/
def convTransposeOut (n kernel stride padding : ℕ) : ℕ :=
  (n - 1) * stride + kernel - 2 * padding

/-- Spatial size after LirGenerator.main (src/lirGAN/model.py lines
175-193) along one dimension: three stride-2 convolutions with kernel 4
and padding 1, then two stride-2 transposed convolutions with kernel 4
and padding 1, then a final stride-2 transposed convolution with kernel 8
and padding 1. -/
def lirGeneratorOut (n : ℕ) : ℕ :=
  let d1 := convOut n 4 2 1
  let d2 := convOut d1 4 2 1
  let d3 := convOut d2 4 2 1
  let u1 := convTransposeOut d3 4 2 1
  let u2 := convTransposeOut u1 4 2 1
  convTransposeOut u2 8 2 1

/-- The kinds of layer modules occurring in this repository's networks
and in WeightsInitializer's isinstance checks. -/
inductive ModuleKind where
  | conv2d
  | convTranspose2d
  | batchNorm2d
  | reLU
  | leakyReLU
  | sigmoidLayer
  | conv3d
  | convTranspose3d
  | batchNorm3d
  deriving DecidableEq, Repr

/-- Symbolic state of a parameter tensor: left at the framework default,
redrawn by nn.init.xavier_normal_, redrawn by nn.init.kaiming_normal_,
or filled with a constant by nn.init.constant_. -/
inductive WState where
  | defaultW
  | xavierNormalW
  | kaimingNormalW
  | constW (q : ℚ)
  deriving DecidableEq, Repr

/-- A network module: its class, its weight tensor state (none for
parameterless activations) and its bias tensor state (none when
bias=False). -/
structure NNModule where
  kind : ModuleKind
  weight : Option WState := none
  bias : Option WState := none
  deriving DecidableEq, Repr

/-- WeightsInitializer.initialize_weights_xavier (src/lirGAN/model.py
lines 150-158), renamed for Lean: xavier_normal_ on the weight and 0 on
a present bias for Conv3d/ConvTranspose3d, constant 1 weight and 0 bias
for BatchNorm3d, no effect on any other module class. -/
def initWeightsXavier (m : NNModule) : NNModule :=
  if m.kind = ModuleKind.conv3d ∨ m.kind = ModuleKind.convTranspose3d then
    { m with weight := some WState.xavierNormalW,
             bias := m.bias.map (fun _ => WState.constW 0) }
  else if m.kind = ModuleKind.batchNorm3d then
    { m with weight := some (WState.constW 1), bias := some (WState.constW 0) }
  else m

/-- WeightsInitializer.initialize_weights_he (src/lirGAN/model.py lines
160-168), renamed for Lean: kaiming_normal_ on the weight and 0 on a
present bias for Conv3d/ConvTranspose3d, constant 1 weight and 0 bias
for BatchNorm3d, no effect on any other module class. -/
def initWeightsHe (m : NNModule) : NNModule :=
  if m.kind = ModuleKind.conv3d ∨ m.kind = ModuleKind.convTranspose3d then
    { m with weight := some WState.kaimingNormalW,
             bias := m.bias.map (fun _ => WState.constW 0) }
  else if m.kind = ModuleKind.batchNorm3d then
    { m with weight := some (WState.constW 1), bias := some (WState.constW 0) }
  else m

/-- A 2D convolution module with bias=False and default weights. -/
def conv2dNoBias : NNModule :=
  { kind := ModuleKind.conv2d, weight := some WState.defaultW, bias := none }

/-- A 2D transposed convolution module with bias=False and default
weights. -/
def convTranspose2dNoBias : NNModule :=
  { kind := ModuleKind.convTranspose2d, weight := some WState.defaultW, bias := none }

/-- A 2D batch normalization module with default weight and bias. -/
def batchNorm2dDefault : NNModule :=
  { kind := ModuleKind.batchNorm2d, weight := some WState.defaultW,
    bias := some WState.defaultW }

/-- The module list of LirGenerator.main (src/lirGAN/model.py lines
175-193). -/
def lirGeneratorModules : List NNModule :=
  [conv2dNoBias, batchNorm2dDefault, { kind := ModuleKind.reLU },
   conv2dNoBias, batchNorm2dDefault, { kind := ModuleKind.reLU },
   conv2dNoBias, batchNorm2dDefault, { kind := ModuleKind.reLU },
   convTranspose2dNoBias, batchNorm2dDefault, { kind := ModuleKind.reLU },
   convTranspose2dNoBias, batchNorm2dDefault, { kind := ModuleKind.reLU },
   convTranspose2dNoBias, { kind := ModuleKind.sigmoidLayer }]

/-- The module list of LirDiscriminator.main (src/lirGAN/model.py lines
205-222). -/
def lirDiscriminatorModules : List NNModule :=
  [conv2dNoBias, { kind := ModuleKind.leakyReLU },
   conv2dNoBias, batchNorm2dDefault, { kind := ModuleKind.leakyReLU },
   conv2dNoBias, batchNorm2dDefault, { kind := ModuleKind.leakyReLU },
   conv2dNoBias, batchNorm2dDefault, { kind := ModuleKind.leakyReLU },
   conv2dNoBias, batchNorm2dDefault, { kind := ModuleKind.leakyReLU },
   conv2dNoBias, { kind := ModuleKind.sigmoidLayer }]

/-- Modelled from the spec: the recognized initializer policy keys
XAVIER and HE are string constants of ModelConfig (src/lirGAN/config.py,
not under src/); modelled as the recognized alternatives of a key type,
plus an unrecognized key. -/
inductive InitKey where
  | xavierKey
  | heKey
  | otherKey
  deriving DecidableEq, Repr

/-- LirGanTrainer._set_initial_weights (src/lirGAN/model.py lines
276-292) restricted to one network: nn.Module.apply maps the chosen
policy over every module of the network; an unrecognized key does
nothing. -/
def setInitialWeights (key : InitKey) (net : List NNModule) : List NNModule :=
  match key with
  | InitKey.xavierKey => net.map initWeightsXavier
  | InitKey.heKey => net.map initWeightsHe
  | InitKey.otherKey => net

/-- Elementwise threshold at 0.5 followed by the int cast, as in
(self.lir_generator(x) > 0.5).astype(int). -/
def thresholdHalf {h w : ℕ} (g : Grid h w) : Grid h w :=
  fun i j => if 1 / 2 < g i j then 1 else 0

/-- Elementwise tensor addition. -/
def gridAdd {h w : ℕ} (a b : Grid h w) : Grid h w :=
  fun i j => a i j + b i j

/-- LirGanTrainer.evaluate (src/lirGAN/model.py lines 339-369), the list
of grids handed to utils.visualize_binary_grids. The random polygon
synthesis is the excluded DataCreator collaborator, so the loop is
parametrized by the list of synthesized polygon grids and by the
generator's thresholded forward pass. For each polygon the source
computes the polygon/prediction overlay but assigns it to the throwaway
name and appends the bare polygon to binary_grids. -/
def evaluateBinaryGrids {h w : ℕ} (gen : Grid h w → Grid h w)
    (polygons : List (Grid h w)) : List (Grid h w) :=
  polygons.foldl
    (fun binary_grids binary_grid_shaped_polygon =>
      let generated_lir := thresholdHalf (gen binary_grid_shaped_polygon)
      let _discarded_overlay := gridAdd binary_grid_shaped_polygon generated_lir
      binary_grids ++ [binary_grid_shaped_polygon])
    []

/-- The grids the spec says the evaluation procedure visualizes: one
polygon/prediction overlay per synthesized polygon. Stated from the spec
for comparison with evaluateBinaryGrids. -/
def evaluateOverlayGrids {h w : ℕ} (gen : Grid h w → Grid h w)
    (polygons : List (Grid h w)) : List (Grid h w) :=
  polygons.map (fun p => gridAdd p (thresholdHalf (gen p)))

/-- Parameter values and gradient buffers of the two networks; torch
parameter tensors flattened to lists of scalars. -/
structure GanTrainState where
  generatorParams : List ℚ
  generatorGrads : List ℚ
  discriminatorParams : List ℚ
  discriminatorGrads : List ℚ

/-- Elementwise gradient accumulation, the += of loss.backward(). -/
def zipAdd (a b : List ℚ) : List ℚ := List.zipWith (· + ·) a b

/-- LirGanTrainer._train_lir_discriminator (src/lirGAN/model.py lines
294-319) as a state transformer. The forward passes and loss evaluation
change no parameters. Then: the discriminator optimizer's zero_grad
clears the discriminator gradient buffers; loss_d.backward() accumulates
gradients into BOTH networks' buffers (the generated batch is not
detached) with values genGrad and discGrad abstracting autograd; the
discriminator optimizer's step updates, via the Adam rule adamStep
(torch internals, abstracted), exactly the parameters it was constructed
over in _get_optimizers: lir_discriminator.parameters(). -/
def trainLirDiscriminator (adamStep : List ℚ → List ℚ → List ℚ)
    (genGrad discGrad : List ℚ) (s : GanTrainState) : GanTrainState :=
  let s1 := { s with discriminatorGrads := s.discriminatorGrads.map (fun _ => 0) }
  let s2 := { s1 with
    generatorGrads := zipAdd s1.generatorGrads genGrad,
    discriminatorGrads := zipAdd s1.discriminatorGrads discGrad }
  { s2 with
    discriminatorParams := adamStep s2.discriminatorParams s2.discriminatorGrads }

/-- The all-zero 1x1 grid. -/
def zeroGrid11 : Grid 1 1 := fun _ _ => 0

/-- The all-one 1x1 grid. -/
def oneGrid11 : Grid 1 1 := fun _ _ => 1

/-- A generator stub whose output probability is 1 everywhere. -/
def constOneGen : Grid 1 1 → Grid 1 1 := fun _ => oneGrid11

/-- A 1x2 polygon mask with a single 1-pixel at column 0. -/
def polyGrid12 : Grid 1 2 := fun _ b => if b = 0 then 1 else 0

/-- The all-zero 1x2 generated mask. -/
def genGrid12 : Grid 1 2 := fun _ _ => 0

/-- The 1x2 generated mask with an extra 1-pixel outside the polygon. -/
def genGrid12ext : Grid 1 2 := fun _ b => if b = 0 then 0 else 1

/-- Claim C1, counterexample: the input resolution 8 is divisible by 8,
yet the shape arithmetic of LirGenerator returns spatial size 12, not 8
(the final transposed convolution with kernel 8, stride 2, padding 1
maps n to 2n + 4, so three halvings then three doublings give
8 * floor(n / 8) + 4). -/
theorem lirGeneratorOut_div8_cex : 8 % 8 = 0 ∧ lirGeneratorOut 8 ≠ 8 := by
  decide

/-- Claim C1, amended: a forward pass of LirGenerator preserves the
spatial size along each dimension exactly for input resolutions
congruent to 4 modulo 8 (and large enough that every layer has a
positive output, n at least 12); in particular for the canonical
resolution 500. -/
theorem lirGeneratorOut_preserves_mod8_eq_4 (n : ℕ) (h4 : n % 8 = 4)
    (h12 : 12 ≤ n) : lirGeneratorOut n = n := by
  simp only [lirGeneratorOut, convOut, convTransposeOut]
  omega

/-- Witness for the amended claim C1 at the canonical resolution 500. -/
theorem lirGeneratorOut_preserves_mod8_eq_4_witness :
    500 % 8 = 4 ∧ 12 ≤ 500 ∧ lirGeneratorOut 500 = 500 :=
  ⟨by decide, by decide, lirGeneratorOut_preserves_mod8_eq_4 500 (by decide) (by decide)⟩

/-- Claim C3: applying either recognized policy of WeightsInitializer to
LirGenerator or LirDiscriminator leaves every module exactly as it was,
default initialization included: the policies match only the 3D module
classes Conv3d, ConvTranspose3d and BatchNorm3d, while both networks are
built from Conv2d, ConvTranspose2d and BatchNorm2d, so no convolutional
weight is redrawn and no normalization scale is set. -/
theorem setInitialWeights_noop_on_lir_networks :
    setInitialWeights InitKey.xavierKey lirGeneratorModules = lirGeneratorModules ∧
    setInitialWeights InitKey.heKey lirGeneratorModules = lirGeneratorModules ∧
    setInitialWeights InitKey.xavierKey lirDiscriminatorModules = lirDiscriminatorModules ∧
    setInitialWeights InitKey.heKey lirDiscriminatorModules = lirDiscriminatorModules := by
  exact ⟨rfl, rfl, rfl, rfl⟩

/-- Claim C2: the evaluation loop hands the visualization sink the bare
synthesized polygons, not the polygon/prediction overlays: with a
generator predicting probability 1 everywhere and one all-zero polygon,
the visualized list is the polygon itself while the overlay differs from
it. -/
theorem evaluate_visualizes_bare_polygons :
    evaluateBinaryGrids constOneGen [zeroGrid11] = [zeroGrid11] ∧
    evaluateOverlayGrids constOneGen [zeroGrid11] ≠ [zeroGrid11] := by
  constructor
  · rfl
  · intro hcontra
    have hhead : gridAdd zeroGrid11 (thresholdHalf (constOneGen zeroGrid11)) = zeroGrid11 := by
      simpa [evaluateOverlayGrids] using hcontra
    have h00 := congrFun (congrFun hhead 0) 0
    simp [gridAdd, thresholdHalf, constOneGen, zeroGrid11, oneGrid11] at h00
    norm_num at h00

/-- Claim C9: a discriminator training step leaves every generator
parameter value unchanged, even though the backward pass has flowed
gradients into the generator's gradient buffers: the step applies the
Adam update only to the parameters the discriminator optimizer owns. -/
theorem trainLirDiscriminator_preserves_generator_params
    (adamStep : List ℚ → List ℚ → List ℚ) (genGrad discGrad : List ℚ)
    (s : GanTrainState) :
    (trainLirDiscriminator adamStep genGrad discGrad s).generatorParams =
      s.generatorParams := rfl

/-- Claim C10: LirGeometricLoss.forward on empty batches returns exactly
0 (total_loss is initialized to the scalar 0 and the loop body never
runs), with no division or empty-mean degeneracy evaluated. -/
theorem forward_empty_batches (h w : ℕ) (cfg : LirGeometricLoss) :
    @forward h w cfg [] [] [] = some 0 := rfl

/-- Claim C4, counterexample: on the all-zero 1x1 generated/target pair,
the source's reconstruction term (nn.BCEWithLogitsLoss on the generated
grid) differs from the plain binary cross-entropy applied to the
generated grid directly, because BCEWithLogitsLoss first applies a
sigmoid to its input. -/
theorem bce_term_ne_direct_bce_cex :
    bce_loss_function zeroGrid11 zeroGrid11 ≠
      bceDirectMean (fun a b => (zeroGrid11 a b : ℝ))
        (fun a b => (zeroGrid11 a b : ℝ)) := by
  have hs : sigmoid 0 = 1 / 2 := by
    unfold sigmoid
    rw [neg_zero, Real.exp_zero]
    norm_num
  have hhalf : (1 : ℝ) - 1 / 2 = 1 / 2 := by norm_num
  have hlog : Real.log (1 / 2) = -Real.log 2 := by
    rw [one_div, Real.log_inv]
  have hL : bce_loss_function zeroGrid11 zeroGrid11 = Real.log 2 := by
    unfold bce_loss_function bceWithLogitsPixel zeroGrid11
    simp [Fin.sum_univ_one, hs, hhalf, hlog]
    norm_num
    rw [hlog, neg_neg]
  have hR : bceDirectMean (fun a b => (zeroGrid11 a b : ℝ))
      (fun a b => (zeroGrid11 a b : ℝ)) = 0 := by
    unfold bceDirectMean bceDirectPixel zeroGrid11
    simp [Fin.sum_univ_one, Real.log_one]
  rw [hL, hR]
  exact ne_of_gt (Real.log_pos one_lt_two)

/-- Claim C4, amended: the reconstruction term equals the plain binary
cross-entropy between the sigmoid of the generated mask and the target
mask, mean-reduced over pixels: BCEWithLogitsLoss treats the generator's
already-sigmoid output as logits and applies one more sigmoid. -/
theorem bce_term_eq_direct_bce_of_sigmoid {h w : ℕ} (g t : Grid h w) :
    bce_loss_function g t =
      bceDirectMean (fun a b => sigmoid (g a b : ℝ)) (fun a b => (t a b : ℝ)) := rfl

/-- zip over three lists distributes over appending aligned prefixes. -/
theorem zip3_append {α β γ : Type} (a1 : List α) :
    ∀ (b1 : List β) (c1 : List γ) (a2 : List α) (b2 : List β) (c2 : List γ),
      a1.length = b1.length → a1.length = c1.length →
      zip3 (a1 ++ a2) (b1 ++ b2) (c1 ++ c2) = zip3 a1 b1 c1 ++ zip3 a2 b2 c2 := by
  induction a1 with
  | nil =>
    intro b1 c1 a2 b2 c2 h1 h2
    obtain rfl : b1 = [] := by
      cases b1 with
      | nil => rfl
      | cons x xs => simp at h1
    obtain rfl : c1 = [] := by
      cases c1 with
      | nil => rfl
      | cons x xs => simp at h2
    simp [zip3]
  | cons a as ih =>
    intro b1 c1 a2 b2 c2 h1 h2
    cases b1 with
    | nil => simp at h1
    | cons b bs =>
      cases c1 with
      | nil => simp at h2
      | cons c cs =>
        simp only [List.cons_append, zip3, List.append_eq]
        rw [ih bs cs a2 b2 c2 (by simpa using h1) (by simpa using h2)]

/-- The initial accumulator some 0 is a left identity for oadd. -/
theorem oadd_some_zero_left (x : Option ℝ) : oadd (some 0) x = x := by
  cases x <;> simp [oadd]

/-- oadd is associative. -/
theorem oadd_assoc (x y z : Option ℝ) : oadd (oadd x y) z = oadd x (oadd y z) := by
  cases x <;> cases y <;> cases z <;> simp [oadd, add_assoc]

/-- Accumulating with oadd from any start equals the start oadd-ed with
the accumulation from some 0. -/
theorem foldl_oadd_shift {α : Type} (f : α → Option ℝ) (l : List α) :
    ∀ acc : Option ℝ,
      l.foldl (fun a x => oadd a (f x)) acc =
        oadd acc (l.foldl (fun a x => oadd a (f x)) (some 0)) := by
  induction l with
  | nil =>
    intro acc
    cases acc <;> simp [oadd]
  | cons x xs ih =>
    intro acc
    simp only [List.foldl_cons]
    rw [ih (oadd acc (f x)), ih (oadd (some 0) (f x)), oadd_assoc,
      oadd_some_zero_left]

/-- Claim C5: LirGeometricLoss.forward on the concatenation of two
aligned batches equals the sum of forward on each batch separately, so
the unaveraged total scales with batch size. -/
theorem forward_batch_additive {h w : ℕ} (cfg : LirGeometricLoss)
    (p1 g1 t1 p2 g2 t2 : List (Grid h w))
    (hgt : g1.length = t1.length) (hgp : g1.length = p1.length) :
    forward cfg (p1 ++ p2) (g1 ++ g2) (t1 ++ t2) =
      oadd (forward cfg p1 g1 t1) (forward cfg p2 g2 t2) := by
  unfold forward
  rw [zip3_append g1 t1 p1 g2 t2 p2 hgt hgp, List.foldl_append,
    foldl_oadd_shift]

/-- Witness for claim C5 on concrete singleton batches. -/
theorem forward_batch_additive_witness :
    ([zeroGrid11] : List (Grid 1 1)).length = [zeroGrid11].length ∧
    ([zeroGrid11] : List (Grid 1 1)).length = [zeroGrid11].length ∧
    forward {} ([zeroGrid11] ++ [oneGrid11]) ([zeroGrid11] ++ [oneGrid11])
        ([zeroGrid11] ++ [oneGrid11]) =
      oadd (forward {} [zeroGrid11] [zeroGrid11] [zeroGrid11])
        (forward {} [oneGrid11] [oneGrid11] [oneGrid11]) :=
  ⟨rfl, rfl,
    forward_batch_additive {} [zeroGrid11] [zeroGrid11] [zeroGrid11]
      [oneGrid11] [oneGrid11] [oneGrid11] rfl rfl⟩

/-- Claim C6: on a pair of pixel-identical masks holding at least one
1-pixel, compute_diou_loss with weight 1 evaluates to 0: the IoU ratio
is 1, the two centroids coincide so the normalized distance is 0, and
1 - (1 - 0) = 0. -/
theorem compute_diou_loss_self_eq_zero {h w : ℕ} (g : Grid h w)
    (i : Fin h) (j : Fin w) (hone : g i j = 1) :
    compute_diou_loss g g 1 = some 0 := by
  have hmem : (⟨i, j⟩ : Fin h × Fin w) ∈ nonzeroPixels g := by
    simp [nonzeroPixels, hone]
  have hcard : (nonzeroPixels g).card ≠ 0 :=
    Finset.card_ne_zero_of_mem hmem
  have hQ : ((nonzeroPixels g).card : ℚ) ≠ 0 := Nat.cast_ne_zero.mpr hcard
  have hinter : interCount g g = (nonzeroPixels g).card := by
    unfold interCount nonzeroPixels
    congr 1
    ext q
    simp
  have hunion : unionCount g g = (nonzeroPixels g).card := by
    unfold unionCount nonzeroPixels
    congr 1
    ext q
    simp
  have hiou : fdiv (interCount g g : ℚ) (unionCount g g : ℚ) = some 1 := by
    rw [hinter, hunion]
    unfold fdiv
    rw [if_neg hQ, div_self hQ]
  have hcent : centroid g = some
      ((∑ q ∈ nonzeroPixels g, (q.1 : ℚ)) / (nonzeroPixels g).card,
       (∑ q ∈ nonzeroPixels g, (q.2 : ℚ)) / (nonzeroPixels g).card) := by
    unfold centroid
    rw [if_neg hcard]
  have hdiag : ((h : ℚ) ^ 2 + (w : ℚ) ^ 2) ≠ 0 := by
    have hh : (0 : ℚ) < (h : ℚ) := by exact_mod_cast i.pos
    have hpos : (0 : ℚ) < (h : ℚ) ^ 2 + (w : ℚ) ^ 2 := by positivity
    exact ne_of_gt hpos
  have hnd : fdiv (0 : ℚ) ((h : ℚ) ^ 2 + (w : ℚ) ^ 2) = some 0 := by
    unfold fdiv
    rw [if_neg hdiag, zero_div]
  unfold compute_diou_loss
  rw [hiou, hcent]
  simp [hnd]

/-- Witness for claim C6 on the concrete all-one 1x1 grid. -/
theorem compute_diou_loss_self_eq_zero_witness :
    oneGrid11 0 0 = 1 ∧ compute_diou_loss oneGrid11 oneGrid11 1 = some 0 :=
  ⟨rfl, compute_diou_loss_self_eq_zero oneGrid11 0 0 rfl⟩

/-- A 0/1 mask with at least one 1-pixel has positive total sum. -/
theorem gridSum_pos_of_mask {h w : ℕ} (p : Grid h w)
    (hmask : ∀ a b, p a b = 0 ∨ p a b = 1) (i : Fin h) (j : Fin w)
    (hone : p i j = 1) : 0 < gridSum p := by
  have hnn : ∀ a b, (0 : ℚ) ≤ p a b := by
    intro a b
    rcases hmask a b with h0 | h1
    · rw [h0]
    · rw [h1]
      norm_num
  have hrow_nonneg : ∀ a : Fin h, (0 : ℚ) ≤ ∑ b : Fin w, p a b := by
    intro a
    exact Finset.sum_nonneg (fun b _ => hnn a b)
  have hrow_i : (1 : ℚ) ≤ ∑ b : Fin w, p i b := by
    calc (1 : ℚ) = p i j := hone.symm
    _ ≤ ∑ b : Fin w, p i b :=
      Finset.single_le_sum (fun b _ => hnn i b) (Finset.mem_univ j)
  have htotal : (1 : ℚ) ≤ gridSum p := by
    unfold gridSum
    calc (1 : ℚ) ≤ ∑ b : Fin w, p i b := hrow_i
    _ ≤ ∑ a : Fin h, ∑ b : Fin w, p a b :=
      Finset.single_le_sum (fun a _ => hrow_nonneg a) (Finset.mem_univ i)
  linarith

/-- Claim C7, counterexample: on the all-zero 1x1 polygon the subset
condition holds vacuously, yet compute_feasibility_loss divides the
infeasible count by the zero polygon sum and the result is non-finite
(NaN), not 0. -/
theorem compute_feasibility_loss_empty_polygon_cex :
    (∀ a b, zeroGrid11 a b = 1 → zeroGrid11 a b = 1) ∧
    compute_feasibility_loss zeroGrid11 zeroGrid11 1 ≠ some 0 := by
  refine ⟨fun a b hab => hab, ?_⟩
  have hsum : gridSum zeroGrid11 = 0 := by
    simp [gridSum, zeroGrid11]
  have hnone : compute_feasibility_loss zeroGrid11 zeroGrid11 1 = none := by
    unfold compute_feasibility_loss
    rw [hsum]
    simp [fdiv]
  rw [hnone]
  simp

/-- Claim C7, amended: for every 0/1 polygon mask with at least one
1-pixel and every generated mask whose 1-pixels all lie inside the
polygon's 1-pixels, compute_feasibility_loss with weight 1 evaluates to
0: the infeasibility count is 0 and the polygon sum is positive. -/
theorem compute_feasibility_loss_subset_eq_zero {h w : ℕ} (p g : Grid h w)
    (i : Fin h) (j : Fin w)
    (hmask : ∀ a b, p a b = 0 ∨ p a b = 1) (hone : p i j = 1)
    (hsub : ∀ a b, g a b = 1 → p a b = 1) :
    compute_feasibility_loss p g 1 = some 0 := by
  have hSne : gridSum p ≠ 0 := ne_of_gt (gridSum_pos_of_mask p hmask i j hone)
  have hcount : (Finset.univ.filter
      (fun q : Fin h × Fin w => g q.1 q.2 = 1 ∧ p q.1 q.2 ≠ 1)).card = 0 := by
    rw [Finset.card_eq_zero, Finset.filter_eq_empty_iff]
    intro q _
    intro hq
    exact hq.2 (hsub q.1 q.2 hq.1)
  unfold compute_feasibility_loss
  rw [hcount]
  simp [fdiv, hSne]

/-- Witness for the amended claim C7 on concrete 1x1 grids. -/
theorem compute_feasibility_loss_subset_eq_zero_witness :
    (∀ a b, oneGrid11 a b = 0 ∨ oneGrid11 a b = 1) ∧ oneGrid11 0 0 = 1 ∧
    (∀ a b, zeroGrid11 a b = 1 → oneGrid11 a b = 1) ∧
    compute_feasibility_loss oneGrid11 zeroGrid11 1 = some 0 :=
  ⟨by decide, rfl, by decide,
    compute_feasibility_loss_subset_eq_zero oneGrid11 zeroGrid11 0 0
      (by decide) rfl (by decide)⟩

/-- Claim C8: holding a 0/1 polygon mask with a 1-pixel fixed, setting
additional pixels of the generated mask to 1 outside the polygon's
1-pixels can only raise the feasibility loss, for every non-negative
weight: both losses are finite and the infeasible pixel set grows. -/
theorem compute_feasibility_loss_mono {h w : ℕ} (p g g' : Grid h w) (wt : ℚ)
    (i : Fin h) (j : Fin w) (hwt : 0 ≤ wt)
    (hmask : ∀ a b, p a b = 0 ∨ p a b = 1) (hone : p i j = 1)
    (hext : ∀ a b, g' a b = g a b ∨ (g a b ≠ 1 ∧ g' a b = 1 ∧ p a b ≠ 1)) :
    ∃ x y, compute_feasibility_loss p g wt = some x ∧
      compute_feasibility_loss p g' wt = some y ∧ x ≤ y := by
  have hS : 0 < gridSum p := gridSum_pos_of_mask p hmask i j hone
  have hSne : gridSum p ≠ 0 := ne_of_gt hS
  have hsubset :
      (Finset.univ.filter
        (fun q : Fin h × Fin w => g q.1 q.2 = 1 ∧ p q.1 q.2 ≠ 1)) ⊆
      (Finset.univ.filter
        (fun q : Fin h × Fin w => g' q.1 q.2 = 1 ∧ p q.1 q.2 ≠ 1)) := by
    intro q hq
    simp only [Finset.mem_filter, Finset.mem_univ, true_and] at hq ⊢
    refine ⟨?_, hq.2⟩
    rcases hext q.1 q.2 with heq | hnew
    · rw [heq]
      exact hq.1
    · exact hnew.2.1
  have hle : ((Finset.univ.filter
      (fun q : Fin h × Fin w => g q.1 q.2 = 1 ∧ p q.1 q.2 ≠ 1)).card : ℚ) ≤
      ((Finset.univ.filter
        (fun q : Fin h × Fin w => g' q.1 q.2 = 1 ∧ p q.1 q.2 ≠ 1)).card : ℚ) := by
    exact_mod_cast Finset.card_le_card hsubset
  refine ⟨((Finset.univ.filter
      (fun q : Fin h × Fin w => g q.1 q.2 = 1 ∧ p q.1 q.2 ≠ 1)).card : ℚ) /
        gridSum p * wt,
    ((Finset.univ.filter
      (fun q : Fin h × Fin w => g' q.1 q.2 = 1 ∧ p q.1 q.2 ≠ 1)).card : ℚ) /
        gridSum p * wt, ?_, ?_, ?_⟩
  · unfold compute_feasibility_loss
    simp [fdiv, hSne]
  · unfold compute_feasibility_loss
    simp [fdiv, hSne]
  · exact mul_le_mul_of_nonneg_right
      ((div_le_div_iff_of_pos_right hS).mpr hle) hwt

/-- Witness for claim C8 on concrete 1x2 grids. -/
theorem compute_feasibility_loss_mono_witness :
    (0 : ℚ) ≤ 1 ∧
    (∀ a b, polyGrid12 a b = 0 ∨ polyGrid12 a b = 1) ∧ polyGrid12 0 0 = 1 ∧
    (∀ a b, genGrid12ext a b = genGrid12 a b ∨
      (genGrid12 a b ≠ 1 ∧ genGrid12ext a b = 1 ∧ polyGrid12 a b ≠ 1)) ∧
    (∃ x y, compute_feasibility_loss polyGrid12 genGrid12 1 = some x ∧
      compute_feasibility_loss polyGrid12 genGrid12ext 1 = some y ∧ x ≤ y) :=
  ⟨by norm_num, by decide, by decide, by decide,
    compute_feasibility_loss_mono polyGrid12 genGrid12 genGrid12ext 1 0 0
      (by norm_num) (by decide) (by decide) (by decide)⟩

end LirGan
